import Mathlib

/-!
Verification development for the `ping` probe engine of maestro-net-tools
(`src/ping/src/ping.rs`).  The engine's session loop is embedded shallowly:
machine integers (`u16`, `u128`) are `Nat` with explicit `% 2 ^ w` at each
operation where Rust release-mode arithmetic wraps; the asynchronous inputs of
one loop iteration (pending signals, the outcome of a send, the outcome of the
blocking receive) are collected in an `IterEvent`, and a whole session is the
deterministic run of `PingContext.ping` over a list of such events.
-/

namespace PingSpec

/-- Subset of `std::io::ErrorKind` distinguished by `ping.rs`: the code matches
on `NetworkUnreachable` (ping.rs:66), `PermissionDenied` (ping.rs:120) and
`Interrupted` (ping.rs:156); every other kind flows through unchanged and is
represented by `other`. -/
inductive ErrKind where
  | networkUnreachable
  | hostUnreachable
  | permissionDenied
  | interrupted
  | other (code : Nat)
deriving DecidableEq

/-- Decidable equality for send/resolve outcomes (`Except` carries no derived
instance in this toolchain). -/
instance (α β : Type) [DecidableEq α] [DecidableEq β] :
    DecidableEq (Except α β) := fun a b =>
  match a, b with
  | .ok x, .ok y =>
    if h : x = y then isTrue (by rw [h]) else isFalse (by simp [h])
  | .error x, .error y =>
    if h : x = y then isTrue (by rw [h]) else isFalse (by simp [h])
  | .ok _, .error _ => isFalse (by simp)
  | .error _, .ok _ => isFalse (by simp)

/-- The session configuration, mirroring `struct PingContext` (ping.rs:34-57).
`count` models `Option<NonZeroU16>`; durations are in milliseconds.  The
socket field is not data: the socket's behaviour enters through the event
stream fed to `ping`. -/
structure PingContext where
  count : Option Nat
  interval : Nat
  deadline : Option Nat
  timeout : Nat
  packet_size : Nat
  ttl : Nat
  dest : String
deriving DecidableEq

/-- Embeds `PingContext::send_packet` (ping.rs:63-69): the outcome of
`packet::write_ping` is the argument; an error of kind `NetworkUnreachable`
is converted to success, every other outcome passes through. -/
def send_packet (res : Except ErrKind Unit) : Except ErrKind Unit :=
  match res with
  | .error e => if e = .networkUnreachable then .ok () else .error e
  | r => r

/-- Modelled from the spec: `packet::parse` lives in `src/ping/src/packet.rs`,
which is not under `src/`.  Per the spec (§4.1), decode validates minimum
length, the one's-complement checksum and type = echo-reply, returning
no-match on any failure and the sequence plus payload length on success.  A
received datagram is therefore modelled abstractly as either a datagram that
passes all three validations (carrying its sequence and payload size) or a
malformed/foreign one. -/
inductive Datagram where
  | valid (seq payload_size : Nat)
  | malformed
deriving DecidableEq

/-- Modelled from the spec: result of `packet::parse` (see `Datagram`). -/
def parse (d : Datagram) : Option (Nat × Nat) :=
  match d with
  | .valid seq payload_size => some (seq, payload_size)
  | .malformed => none

/-- Outcome of one blocking `sock.recvmsg` call (ping.rs:152): either a
datagram with peer metadata (source address, peer TTL) and the clock reading
(milliseconds since session start) at which the reply is processed, or an
error kind. -/
inductive RecvOutcome where
  | ok (dg : Datagram) (src_addr : String) (ttl : Nat) (now : Nat)
  | err (e : ErrKind)
deriving DecidableEq

/-- The asynchronous inputs consumed by one iteration of the probing loop:
whether `SIGINT` / `SIGALRM` were delivered since the previous iteration,
the outcome `packet::write_ping` would produce if a probe is sent this
iteration, and the outcome of the blocking receive. -/
structure IterEvent where
  sigInt : Bool
  sigAlrm : Bool
  sendRes : Except ErrKind Unit
  recv : RecvOutcome
deriving DecidableEq

/-- The mutable state of `PingContext::ping` (ping.rs:106-115 and the two
atomics ping.rs:21-23).  `transmit_count` and `receive_count` are `u16`
(kept `< 2 ^ 16` by wrapping at each increment); the four delta accumulators
are `u128` (wrapping at `2 ^ 128`); `min_delta` starts at `u128::MAX`. -/
structure PingState where
  transmit_count : Nat
  receive_count : Nat
  min_delta : Nat
  max_delta : Nat
  sum_delta : Nat
  sum_squared_delta : Nat
  intFlag : Bool
  alarmFlag : Bool
deriving DecidableEq

/-- The continuation test at the top of the loop (ping.rs:138):
`self.count.map(|c| receive_count < c.get()).unwrap_or(true)`.  Note that the
`deadline` field of the context is not consulted anywhere in the loop. -/
def contCond (ctx : PingContext) (st : PingState) : Bool :=
  match ctx.count with
  | some c => st.receive_count < c
  | none => true

/-- One line of the program's output.  `rttLine` records the figures the rtt
line is printed from (ping.rs:198-203): the program prints `minMs`,
`sum / received`, `maxMs` and `sqrt (sumSq / received)`; the two divisions
are modelled exactly by `rtt_avg` and `rtt_mdevSq` below. -/
inductive Output where
  | forbiddenDiag
  | header (dest addr : String) (packet_size : Nat)
  | replyLine (payload_size : Nat) (src_addr : String) (seq ttl time : Nat)
  | blank
  | statsHeader (dest : String)
  | statsLine (transmitted received loss_pct elapsed : Nat)
  | rttLine (minMs sum maxMs sumSq received : Nat)
deriving DecidableEq

/-- Result of one loop iteration after the break test: either a `return Err`
path (ping.rs:148 via `?`, or ping.rs:157), or continuation with the new
state, the lines printed and the sequence numbers handed to `send_packet`
during the iteration. -/
inductive StepOut where
  | fatal (st : PingState) (e : ErrKind) (sent : List Nat)
  | next (st : PingState) (outs : List Output) (sent : List Nat)
deriving DecidableEq

/-- The receive half of a loop iteration (ping.rs:152-175): `Interrupted`
means `continue`; any other receive error is returned to the caller; a
datagram is handed to `packet::parse`, a no-match is dropped silently, and a
match prints the reply line and updates the statistics.  The round-trip time
is `now - (start + interval * seq)` in milliseconds (ping.rs:162-163),
saturating at zero like `Instant::duration_since`. -/
def recvPhase (ctx : PingContext) (st : PingState) (ev : IterEvent)
    (sent : List Nat) : StepOut :=
  match ev.recv with
  | .err e => if e = .interrupted then .next st [] sent else .fatal st e sent
  | .ok dg src ttlv now =>
    match parse dg with
    | none => .next st [] sent
    | some (seq, payload_size) =>
      let delta := now - ctx.interval * seq
      .next
        { st with
          receive_count := (st.receive_count + 1) % 65536
          min_delta := Nat.min st.min_delta delta
          max_delta := Nat.max st.max_delta delta
          sum_delta := (st.sum_delta + delta) % 2 ^ 128
          sum_squared_delta :=
            (st.sum_squared_delta + delta * delta % 2 ^ 128) % 2 ^ 128 }
        [.replyLine payload_size src seq ttlv delta] sent

/-- One iteration of the probing loop body after the break test
(ping.rs:143-175): absorb the signals delivered since the previous iteration
into the two flags, then, if the alarm flag is set, clear it and send the
next probe with sequence number `transmit_count` (a send failure propagates
via `?` before the counter is incremented), then perform the receive phase. -/
def loopStep (ctx : PingContext) (st0 : PingState) (ev : IterEvent) : StepOut :=
  let st := { st0 with
    intFlag := st0.intFlag || ev.sigInt
    alarmFlag := st0.alarmFlag || ev.sigAlrm }
  if st.alarmFlag then
    match send_packet ev.sendRes with
    | .error e => .fatal { st with alarmFlag := false } e [st.transmit_count]
    | .ok () =>
      recvPhase ctx
        { st with
          alarmFlag := false
          transmit_count := (st.transmit_count + 1) % 65536 }
        ev [st.transmit_count]
  else
    recvPhase ctx st ev []

/-- How the probing loop ended: through its break test (ping.rs:139-141),
through a `return Err` path, or — a model artefact — with the event list
exhausted while the loop would still be running. -/
inductive LoopRes where
  | broke (st : PingState)
  | fatal (st : PingState) (e : ErrKind)
  | outOfEvents (st : PingState)
deriving DecidableEq

/-- The probing loop (ping.rs:136-176): evaluate the break test on the
current state; if the loop continues, consume the next event with
`loopStep`.  Returns the loop result together with all lines printed and all
sequence numbers handed to `send_packet`, in order. -/
def runLoop (ctx : PingContext) :
    PingState → List IterEvent → LoopRes × List Output × List Nat
  | st, [] =>
    if st.intFlag || !contCond ctx st then (.broke st, [], [])
    else (.outOfEvents st, [], [])
  | st, ev :: rest =>
    if st.intFlag || !contCond ctx st then (.broke st, [], [])
    else
      match loopStep ctx st ev with
      | .fatal st2 e sent => (.fatal st2 e, [], sent)
      | .next st2 outs sent =>
        let t := runLoop ctx st2 rest
        (t.1, outs ++ t.2.1, sent ++ t.2.2)

/-- The loss count at the summary (ping.rs:180-184): `transmit_count -
receive_count` clamped at zero. -/
def loss_count (tx rx : Nat) : Nat :=
  if rx ≤ tx then tx - rx else 0

/-- The loss percentage at the summary (ping.rs:185): `loss_count * 100 /
transmit_count` evaluated in `u16` arithmetic, so the product wraps at
`2 ^ 16` before the integer division. -/
def loss_percentage (tx rx : Nat) : Nat :=
  loss_count tx rx * 100 % 65536 / tx

/-- The printed `avg` figure of the rtt line (ping.rs:200):
`sum_delta as f32 / receive_count as f32`, modelled as an exact rational. -/
def rtt_avg (st : PingState) : ℚ :=
  (st.sum_delta : ℚ) / (st.receive_count : ℚ)

/-- The radicand of the printed `mdev` figure of the rtt line (ping.rs:202):
the program prints `(sum_squared_delta as f32 / receive_count as f32).sqrt()`,
i.e. the square root of this quantity, modelled as an exact rational. -/
def rtt_mdevSq (st : PingState) : ℚ :=
  (st.sum_squared_delta : ℚ) / (st.receive_count : ℚ)

/-- The summary block (ping.rs:187-204): a blank line, the statistics header,
the packet-loss line, and — only when `receive_count > 0` — the rtt line,
whose `avg` is `sum_delta / receive_count` and whose printed `mdev` is the
square root of `sum_squared_delta / receive_count`. -/
def summaryBlock (ctx : PingContext) (st : PingState) (endNow : Nat) :
    List Output :=
  [.blank, .statsHeader ctx.dest,
   .statsLine st.transmit_count st.receive_count
     (loss_percentage st.transmit_count st.receive_count) endNow] ++
  if 0 < st.receive_count then
    [.rttLine st.min_delta st.sum_delta st.max_delta st.sum_squared_delta
      st.receive_count]
  else []

/-- How a whole `ping` call ends: `exited code` is `std::process::exit`
(ping.rs:122), `err e` is an `Err` returned to the caller, `ok` is normal
completion, `outOfEvents` is the model artefact of an exhausted event list,
and `panicked` is the division by zero in `loss_percentage` when the wrapped
`transmit_count` is `0` at the summary (Rust panics on division by zero). -/
inductive Outcome where
  | exited (code : Nat)
  | err (e : ErrKind)
  | ok
  | outOfEvents
  | panicked
deriving DecidableEq

/-- Maps the loop result to the session outcome (ping.rs:157 returns the
error; ping.rs:178-206 runs the summary on the break path, where the
division `loss_count * 100 / transmit_count` panics if `transmit_count`
wrapped to `0`). -/
def loopOutcome (r : LoopRes) : Outcome :=
  match r with
  | .broke st => if st.transmit_count = 0 then .panicked else .ok
  | .fatal _ e => .err e
  | .outOfEvents _ => .outOfEvents

/-- The summary lines produced after the loop: printed only on the break
path, and only if the loss-percentage division does not panic. -/
def summaryOut (ctx : PingContext) (r : LoopRes) (endNow : Nat) : List Output :=
  match r with
  | .broke st => if st.transmit_count = 0 then [] else summaryBlock ctx st endNow
  | _ => []

/-- The loop-final state, available exactly when the summary step is reached
(the break path). -/
def loopFinal (r : LoopRes) : Option PingState :=
  match r with
  | .broke st => some st
  | _ => none

/-- Everything observable about one `ping` call: its outcome, the lines it
printed, the sequence numbers it handed to `send_packet` (in order), and the
state at the summary step when that step was reached. -/
structure PingRun where
  outcome : Outcome
  outputs : List Output
  sends : List Nat
  final : Option PingState
deriving DecidableEq

/-- Embeds `PingContext::ping` (ping.rs:74-207).  `resolve` is the outcome of
`addr::parse` (an external one-shot collaborator; on success it yields the
resolved address string), `firstSend` is the outcome `packet::write_ping`
would produce for probe 0, `events` drives the loop and `endNow` is the
elapsed milliseconds read at ping.rs:178.  Control flow follows the source:
resolution failure propagates via `?`; a `PermissionDenied` outcome of
`send_packet` on the first probe prints the broadcast diagnostic and calls
`exit(1)`; any other first-send error propagates via `?` before the header
line; otherwise `transmit_count` becomes 1, the header is printed and the
loop runs; a loop error propagates without any summary line. -/
def ping (ctx : PingContext) (resolve : Except ErrKind String)
    (firstSend : Except ErrKind Unit) (events : List IterEvent)
    (endNow : Nat) : PingRun :=
  match resolve with
  | .error e => ⟨.err e, [], [], none⟩
  | .ok addr =>
    match send_packet firstSend with
    | .error e =>
      if e = .permissionDenied then ⟨.exited 1, [.forbiddenDiag], [0], none⟩
      else ⟨.err e, [], [0], none⟩
    | .ok () =>
      let st0 : PingState := ⟨1, 0, 2 ^ 128 - 1, 0, 0, 0, false, false⟩
      let t := runLoop ctx st0 events
      ⟨loopOutcome t.1,
       .header ctx.dest addr ctx.packet_size :: t.2.1 ++ summaryOut ctx t.1 endNow,
       0 :: t.2.2,
       loopFinal t.1⟩

/-- Whether a list of output lines contains the packet-loss statistics line,
the line every printed summary block contains. -/
def hasSummary (outs : List Output) : Bool :=
  outs.any fun o =>
    match o with
    | .statsLine _ _ _ _ => true
    | _ => false

/-- Whatever events remain, the loop stops as soon as its break test holds. -/
theorem runLoop_break (ctx : PingContext) (st : PingState) (evs : List IterEvent)
    (h : (st.intFlag || !contCond ctx st) = true) :
    runLoop ctx st evs = (.broke st, [], []) := by
  cases evs <;> simp only [runLoop, h, if_true]

/-- C1: the claim reads "the continuation condition ... is exactly: stop not
requested AND (no reply-count limit OR received < limit) AND (no deadline OR
elapsed < deadline) ... for every session configured with an overall deadline,
the loop stops continuing once the elapsed time reaches the deadline."  The
code never reads the `deadline` field: with `deadline = 5` ms and no count
limit, a timer expiry processed at elapsed 10000 ms still sends probe 1 and
the loop keeps running, and the whole run is identical to the run of the same
session with no deadline at all. -/
theorem c1_deadline_not_enforced :
    (ping ⟨none, 1000, some 5, 1000, 56, 64, "host"⟩ (.ok "9.9.9.9") (.ok ())
      [⟨false, true, .ok (), .ok (.valid 0 56) "1.2.3.4" 64 10000⟩]
      10000).sends = [0, 1] ∧
    (ping ⟨none, 1000, some 5, 1000, 56, 64, "host"⟩ (.ok "9.9.9.9") (.ok ())
      [⟨false, true, .ok (), .ok (.valid 0 56) "1.2.3.4" 64 10000⟩]
      10000).outcome = .outOfEvents ∧
    ping ⟨none, 1000, some 5, 1000, 56, 64, "host"⟩ (.ok "9.9.9.9") (.ok ())
      [⟨false, true, .ok (), .ok (.valid 0 56) "1.2.3.4" 64 10000⟩] 10000 =
    ping ⟨none, 1000, none, 1000, 56, 64, "host"⟩ (.ok "9.9.9.9") (.ok ())
      [⟨false, true, .ok (), .ok (.valid 0 56) "1.2.3.4" 64 10000⟩] 10000 := by
  refine ⟨by decide, by decide, by decide⟩

/-- C3: with round-trip samples 10, 20, 30 ms (replies to sequences 0, 1, 2 at
10, 1020 and 2030 ms with a 1000 ms interval), the summary reports min = 10,
mean = sum/received = 20, max = 30, and a spread whose radicand is
sum-of-squares/received = 1400/3; its square root lies strictly between 21.6
and 21.7 (so ≈ 21.6), and it is the root-mean-square, not the standard
deviation around the mean (the latter's radicand would be 200/3). -/
theorem c3_summary_statistics :
    (ping ⟨some 3, 1000, none, 1000, 56, 64, "example"⟩ (.ok "9.9.9.9") (.ok ())
        [⟨false, false, .ok (), .ok (.valid 0 56) "1.2.3.4" 56 10⟩,
         ⟨false, true, .ok (), .ok (.valid 1 56) "1.2.3.4" 56 1020⟩,
         ⟨false, true, .ok (), .ok (.valid 2 56) "1.2.3.4" 56 2030⟩]
        2030).outputs =
      [.header "example" "9.9.9.9" 56,
       .replyLine 56 "1.2.3.4" 0 56 10,
       .replyLine 56 "1.2.3.4" 1 56 20,
       .replyLine 56 "1.2.3.4" 2 56 30,
       .blank, .statsHeader "example",
       .statsLine 3 3 0 2030,
       .rttLine 10 60 30 1400 3] ∧
    (ping ⟨some 3, 1000, none, 1000, 56, 64, "example"⟩ (.ok "9.9.9.9") (.ok ())
        [⟨false, false, .ok (), .ok (.valid 0 56) "1.2.3.4" 56 10⟩,
         ⟨false, true, .ok (), .ok (.valid 1 56) "1.2.3.4" 56 1020⟩,
         ⟨false, true, .ok (), .ok (.valid 2 56) "1.2.3.4" 56 2030⟩]
        2030).final = some ⟨3, 3, 10, 30, 60, 1400, false, false⟩ ∧
    rtt_avg ⟨3, 3, 10, 30, 60, 1400, false, false⟩ = 20 ∧
    (21.6 : ℝ) <
      Real.sqrt ((rtt_mdevSq ⟨3, 3, 10, 30, 60, 1400, false, false⟩ : ℚ) : ℝ) ∧
    Real.sqrt ((rtt_mdevSq ⟨3, 3, 10, 30, 60, 1400, false, false⟩ : ℚ) : ℝ) <
      21.7 ∧
    rtt_mdevSq ⟨3, 3, 10, 30, 60, 1400, false, false⟩ ≠
      ((10 - 20 : ℚ) ^ 2 + (20 - 20) ^ 2 + (30 - 20) ^ 2) / 3 := by
  have hmd : ((rtt_mdevSq ⟨3, 3, 10, 30, 60, 1400, false, false⟩ : ℚ) : ℝ) =
      1400 / 3 := by
    unfold rtt_mdevSq
    push_cast
    norm_num
  refine ⟨by decide, by decide, by norm_num [rtt_avg], ?_, ?_, ?_⟩
  · rw [hmd]
    exact (Real.lt_sqrt (by norm_num)).mpr (by norm_num)
  · rw [hmd]
    exact (Real.sqrt_lt' (by norm_num)).mpr (by norm_num)
  · norm_num [rtt_mdevSq]

/-- C4, counterexample: the claim asserts the reported loss percentage equals
`loss * 100 / transmitted` for every pair of final counters, but the product
is evaluated in 16-bit arithmetic: at transmitted = 700, received = 0 the
code reports `70000 % 65536 / 700 = 6`, not `100`. -/
theorem c4_counterexample :
    loss_percentage 700 0 = 6 ∧ loss_count 700 0 * 100 / 700 = 100 ∧
    loss_percentage 700 0 ≠ loss_count 700 0 * 100 / 700 := by decide

/-- C4, amended: the reported loss equals `max(0, transmitted - received)`,
and the reported loss percentage equals `loss * 100 / transmitted` (integer
division) whenever `loss * 100` fits in 16 bits (i.e. loss ≤ 655). -/
theorem c4_loss_arithmetic (tx rx : Nat) (h1 : 1 ≤ tx)
    (h2 : loss_count tx rx * 100 < 65536) :
    (loss_count tx rx : ℤ) = max 0 ((tx : ℤ) - (rx : ℤ)) ∧
    loss_percentage tx rx = loss_count tx rx * 100 / tx := by
  constructor
  · unfold loss_count
    split
    · next h =>
      rw [Nat.cast_sub h, max_eq_right (sub_nonneg.mpr (by exact_mod_cast h))]
    · next h =>
      push_neg at h
      rw [Nat.cast_zero, max_eq_left (sub_nonpos.mpr (by exact_mod_cast h.le))]
  · unfold loss_percentage
    rw [Nat.mod_eq_of_lt h2]

/-- C4, witness: at transmitted = 5, received = 3 the hypotheses hold and the
amended claim yields loss = 2 and 40%. -/
theorem c4_witness :
    ((loss_count 5 3 : ℤ) = max 0 ((5 : ℤ) - (3 : ℤ)) ∧
      loss_percentage 5 3 = loss_count 5 3 * 100 / 5) ∧
    loss_percentage 5 3 = 40 ∧ loss_count 5 3 = 2 ∧
    (loss_count 4 5 : ℤ) = max 0 ((4 : ℤ) - (5 : ℤ)) :=
  ⟨c4_loss_arithmetic 5 3 (by decide) (by decide), by decide, by decide,
   (c4_loss_arithmetic 4 5 (by decide) (by decide)).1⟩

/-- C5, counterexample: the claim asserts a host-unreachable send failure is
recovered like a network-unreachable one, but `send_packet` only swallows
`NetworkUnreachable`: a `HostUnreachable` first-probe failure propagates as
an error, the probe is not counted as transmitted and the loop never runs. -/
theorem c5_counterexample :
    send_packet (.error .hostUnreachable) ≠ .ok () ∧
    (ping ⟨none, 1000, none, 1000, 56, 64, "host"⟩ (.ok "9.9.9.9")
      (.error .hostUnreachable)
      [⟨false, true, .ok (), .err .interrupted⟩] 0).outcome =
      .err .hostUnreachable ∧
    (ping ⟨none, 1000, none, 1000, 56, 64, "host"⟩ (.ok "9.9.9.9")
      (.error .hostUnreachable)
      [⟨false, true, .ok (), .err .interrupted⟩] 0).final = none := by
  refine ⟨by decide, by decide, by decide⟩

/-- C5, amended: exactly the network-unreachable send failures (besides
success itself) are recovered silently by `send_packet`; a run whose first
send fails with network-unreachable is indistinguishable from a run whose
first send succeeds (the probe counts as transmitted and the loop continues),
and likewise for any in-loop send. -/
theorem c5_transient_recovery :
    (∀ r : Except ErrKind Unit,
      send_packet r = .ok () ↔ r = .ok () ∨ r = .error .networkUnreachable) ∧
    (∀ (ctx : PingContext) (resolve : Except ErrKind String)
        (events : List IterEvent) (endNow : Nat),
      ping ctx resolve (.error .networkUnreachable) events endNow =
        ping ctx resolve (.ok ()) events endNow) ∧
    (∀ (ctx : PingContext) (st : PingState) (ev : IterEvent),
      loopStep ctx st { ev with sendRes := .error .networkUnreachable } =
        loopStep ctx st { ev with sendRes := .ok () }) := by
  refine ⟨?_, ?_, ?_⟩
  · intro r
    rcases r with u | e
    · simp [send_packet]
    · cases e <;> simp [send_packet]
  · intro ctx resolve events endNow
    rfl
  · intro ctx st ev
    rfl

/-- C6: a permission-denied failure on the very first probe prints the
dedicated broadcast diagnostic and terminates the process with `exit(1)` —
an outcome distinct from every propagated error and from normal completion —
after handing only sequence number 0 to `send_packet`, whatever events were
still pending. -/
theorem c6_forbidden_first_probe :
    (∀ (ctx : PingContext) (addr : String) (events : List IterEvent)
        (endNow : Nat),
      ping ctx (.ok addr) (.error .permissionDenied) events endNow =
        ⟨.exited 1, [.forbiddenDiag], [0], none⟩) ∧
    (∀ e : ErrKind, (Outcome.exited 1) ≠ .err e) ∧
    (Outcome.exited 1) ≠ .ok := by
  refine ⟨fun ctx addr events endNow => rfl, fun e h => ?_, fun h => ?_⟩
  · exact Outcome.noConfusion h
  · exact Outcome.noConfusion h

/-- C10: with the 16-bit counters of the code, the printed loss percentage
`loss_count * 100 % 2^16 / transmit_count` equals the exact
`loss * 100 / transmitted` if and only if `loss_count * 100` fits in 16 bits,
i.e. `loss_count ≤ 655`. -/
theorem c10_loss_percentage_overflow (tx rx : Nat) (h1 : 1 ≤ tx)
    (h2 : tx < 65536) :
    loss_percentage tx rx = loss_count tx rx * 100 / tx ↔
      loss_count tx rx ≤ 655 := by
  constructor
  · intro h
    by_contra hgt
    push_neg at hgt
    have hle : loss_count tx rx ≤ tx := by unfold loss_count; split <;> omega
    have ha : 65536 ≤ loss_count tx rx * 100 := by omega
    have hq : 1 ≤ loss_count tx rx * 100 / 65536 :=
      (Nat.one_le_div_iff (by norm_num)).mpr ha
    have hmod : loss_count tx rx * 100 % 65536 +
        65536 * (loss_count tx rx * 100 / 65536) = loss_count tx rx * 100 :=
      Nat.mod_add_div _ _
    have hmul : 65536 ≤ 65536 * (loss_count tx rx * 100 / 65536) :=
      Nat.le_mul_of_pos_right _ hq
    have hbd : loss_count tx rx * 100 % 65536 + tx ≤ loss_count tx rx * 100 := by
      omega
    have hdiv : loss_count tx rx * 100 % 65536 / tx + 1 ≤
        loss_count tx rx * 100 / tx := by
      have h3 : (loss_count tx rx * 100 % 65536 + tx) / tx ≤
          loss_count tx rx * 100 / tx := Nat.div_le_div_right hbd
      rwa [Nat.add_div_right _ h1] at h3
    unfold loss_percentage at h
    omega
  · intro h
    unfold loss_percentage
    rw [Nat.mod_eq_of_lt (by omega)]

/-- C10, witness: at transmitted = 5, received = 3 both sides of the
equivalence hold (loss = 2 ≤ 655 and the printed percentage is the exact 40),
and the instantiated equivalence follows from the theorem. -/
theorem c10_witness :
    (loss_percentage 5 3 = loss_count 5 3 * 100 / 5 ↔ loss_count 5 3 ≤ 655) ∧
    loss_percentage 5 3 = 40 :=
  ⟨c10_loss_percentage_overflow 5 3 (by decide) (by decide), by decide⟩

/-- C7: in a session with a reply-count limit of 3 in which every probe is
answered before the next timer expiry, the engine hands exactly the
sequence numbers 0, 1, 2 to `send_packet` and completes normally, whatever
events (further timer expiries included) are still pending and however much
time remains before any deadline. -/
theorem c7_count_limit (ctx : PingContext) (h : ctx.count = some 3)
    (addr a1 a2 a3 : String) (p1 p2 p3 t1 t2 t3 n1 n2 n3 endNow : Nat)
    (rest : List IterEvent) :
    (ping ctx (.ok addr) (.ok ())
      ([⟨false, false, .ok (), .ok (.valid 0 p1) a1 t1 n1⟩,
        ⟨false, true, .ok (), .ok (.valid 1 p2) a2 t2 n2⟩,
        ⟨false, true, .ok (), .ok (.valid 2 p3) a3 t3 n3⟩] ++ rest)
      endNow).sends = [0, 1, 2] ∧
    (ping ctx (.ok addr) (.ok ())
      ([⟨false, false, .ok (), .ok (.valid 0 p1) a1 t1 n1⟩,
        ⟨false, true, .ok (), .ok (.valid 1 p2) a2 t2 n2⟩,
        ⟨false, true, .ok (), .ok (.valid 2 p3) a3 t3 n3⟩] ++ rest)
      endNow).outcome = .ok := by
  have hbrk :
      ∀ (mn mx s q : Nat),
        runLoop ctx ⟨3, 3, mn, mx, s, q, false, false⟩ rest =
          (.broke ⟨3, 3, mn, mx, s, q, false, false⟩, [], []) := by
    intro mn mx s q
    exact runLoop_break ctx _ rest (by simp [contCond, h])
  constructor <;>
    simp [ping, runLoop, loopStep, recvPhase, send_packet, parse, contCond, h,
      hbrk, loopOutcome]

/-- C7, witness: the theorem applied to a concrete session (count limit 3,
1-second interval, a 10-second deadline far from elapsing) with one pending
fourth timer expiry. -/
theorem c7_witness :
    (ping ⟨some 3, 1000, some 10000, 1000, 56, 64, "example"⟩ (.ok "9.9.9.9")
      (.ok ())
      ([⟨false, false, .ok (), .ok (.valid 0 56) "1.2.3.4" 64 10⟩,
        ⟨false, true, .ok (), .ok (.valid 1 56) "1.2.3.4" 64 1020⟩,
        ⟨false, true, .ok (), .ok (.valid 2 56) "1.2.3.4" 64 2030⟩] ++
        [⟨false, true, .ok (), .ok (.valid 3 56) "1.2.3.4" 64 3040⟩])
      3040).sends = [0, 1, 2] :=
  (c7_count_limit ⟨some 3, 1000, some 10000, 1000, 56, 64, "example"⟩ rfl
    "9.9.9.9" "1.2.3.4" "1.2.3.4" "1.2.3.4" 56 56 56 64 64 64 10 1020 2030
    3040 [⟨false, true, .ok (), .ok (.valid 3 56) "1.2.3.4" 64 3040⟩]).1

/-- C8: an iteration whose received datagram fails to decode leaves
`receive_count` and all four running statistics unchanged and prints
nothing, whatever else (signal absorption, a paced send) the iteration
does. -/
theorem c8_malformed_no_effect (ctx : PingContext) (st : PingState)
    (ev : IterEvent) (dg : Datagram) (src : String) (ttlv now : Nat)
    (hr : ev.recv = .ok dg src ttlv now) (hp : parse dg = none)
    (hs : send_packet ev.sendRes = .ok ()) :
    ∃ st2 sent, loopStep ctx st ev = .next st2 [] sent ∧
      st2.receive_count = st.receive_count ∧
      st2.min_delta = st.min_delta ∧ st2.max_delta = st.max_delta ∧
      st2.sum_delta = st.sum_delta ∧
      st2.sum_squared_delta = st.sum_squared_delta := by
  unfold loopStep recvPhase
  simp only [hs, hr, hp]
  by_cases ha : (st.alarmFlag || ev.sigAlrm) = true
  · rw [if_pos ha]
    exact ⟨_, _, rfl, rfl, rfl, rfl, rfl, rfl⟩
  · rw [if_neg ha]
    exact ⟨_, _, rfl, rfl, rfl, rfl, rfl, rfl⟩

/-- C8, witness: the theorem applied to a malformed datagram received in an
iteration that also sends a paced probe; the iteration's step leaves the
receive counter and statistics unchanged and prints nothing. -/
theorem c8_witness :
    ∃ st2 sent,
      loopStep ⟨none, 1000, none, 1000, 56, 64, "host"⟩
        ⟨5, 2, 7, 30, 37, 949, false, false⟩
        ⟨false, true, .ok (), .ok .malformed "1.2.3.4" 64 4000⟩ =
        .next st2 [] sent ∧
      st2.receive_count = (⟨5, 2, 7, 30, 37, 949, false, false⟩ :
        PingState).receive_count ∧
      st2.min_delta = 7 ∧ st2.max_delta = 30 ∧ st2.sum_delta = 37 ∧
      st2.sum_squared_delta = 949 :=
  c8_malformed_no_effect ⟨none, 1000, none, 1000, 56, 64, "host"⟩
    ⟨5, 2, 7, 30, 37, 949, false, false⟩
    ⟨false, true, .ok (), .ok .malformed "1.2.3.4" 64 4000⟩
    .malformed "1.2.3.4" 64 4000 rfl rfl rfl

/-- A single loop iteration prints at most one reply line and never a
summary line. -/
theorem loopStep_outs (ctx : PingContext) (st : PingState) (ev : IterEvent) :
    ∀ st2 outs sent, loopStep ctx st ev = .next st2 outs sent →
      outs = [] ∨ ∃ p s q t d, outs = [Output.replyLine p s q t d] := by
  intro st2 outs sent h
  simp only [loopStep, recvPhase] at h
  repeat' split at h
  all_goals try exact StepOut.noConfusion h
  all_goals injection h with h1 h2 h3
  all_goals subst h2
  all_goals simp

/-- The probing loop itself never prints the packet-loss summary line: that
line can only come from the summary step after the loop. -/
theorem runLoop_no_stats (ctx : PingContext) :
    ∀ (evs : List IterEvent) (st : PingState),
      hasSummary (runLoop ctx st evs).2.1 = false := by
  intro evs
  induction evs with
  | nil =>
    intro st
    rw [runLoop]
    split <;> simp [hasSummary]
  | cons ev rest ih =>
    intro st
    rw [runLoop]
    split
    · simp [hasSummary]
    · rcases hstep : loopStep ctx st ev with ⟨st2, e, sent⟩ | ⟨st2, outs, sent⟩
      · simp [hstep, hasSummary]
      · have houts := loopStep_outs ctx st ev st2 outs sent hstep
        have hrec := ih st2
        rcases houts with h0 | ⟨p, s, q, t, d, h1⟩
        · subst h0
          simp only [hstep]
          simpa [hasSummary] using hrec
        · subst h1
          simp only [hstep]
          simpa [hasSummary] using hrec

/-- C2, counterexample: the claim says a fatal receive failure in the loop
still prints the summary block with the statistics gathered so far; here the
loop has already recorded one reply (its line is in the output), the next
receive fails fatally, the error is propagated — and no summary line is
printed. -/
theorem c2_counterexample :
    (ping ⟨none, 1000, none, 1000, 56, 64, "host"⟩ (.ok "9.9.9.9") (.ok ())
      [⟨false, false, .ok (), .ok (.valid 0 56) "1.2.3.4" 56 10⟩,
       ⟨false, false, .ok (), .err (.other 0)⟩] 0).outcome = .err (.other 0) ∧
    Output.replyLine 56 "1.2.3.4" 0 56 10 ∈
      (ping ⟨none, 1000, none, 1000, 56, 64, "host"⟩ (.ok "9.9.9.9") (.ok ())
        [⟨false, false, .ok (), .ok (.valid 0 56) "1.2.3.4" 56 10⟩,
         ⟨false, false, .ok (), .err (.other 0)⟩] 0).outputs ∧
    hasSummary
      (ping ⟨none, 1000, none, 1000, 56, 64, "host"⟩ (.ok "9.9.9.9") (.ok ())
        [⟨false, false, .ok (), .ok (.valid 0 56) "1.2.3.4" 56 10⟩,
         ⟨false, false, .ok (), .err (.other 0)⟩] 0).outputs = false := by
  refine ⟨by decide, by decide, by decide⟩

/-- C2, amended: whenever a `ping` run propagates an error to the caller —
fatal receive failures and fatal in-loop send failures included — no
statistics summary block is printed at all; resolution failures and
first-probe failures likewise abort with no summary. -/
theorem c2_no_summary_on_fatal (ctx : PingContext)
    (resolve : Except ErrKind String) (firstSend : Except ErrKind Unit)
    (events : List IterEvent) (endNow : Nat) (e : ErrKind)
    (h : (ping ctx resolve firstSend events endNow).outcome = .err e) :
    hasSummary (ping ctx resolve firstSend events endNow).outputs = false := by
  unfold ping at h ⊢
  rcases resolve with e2 | addr
  · simp [hasSummary]
  · rcases hsp : send_packet firstSend with e3 | ⟨⟩
    · simp only [hsp] at h ⊢
      split <;> simp [hasSummary]
    · simp only [hsp] at h ⊢
      rcases hr : runLoop ctx ⟨1, 0, 2 ^ 128 - 1, 0, 0, 0, false, false⟩ events
        with ⟨r, os, ss⟩
      simp only [hr] at h ⊢
      rcases r with st | ⟨st, e4⟩ | st
      · simp only [loopOutcome] at h
        split at h <;> exact absurd h (by simp)
      · have hos : hasSummary os = false := by
          have hns := runLoop_no_stats ctx events
            ⟨1, 0, 2 ^ 128 - 1, 0, 0, 0, false, false⟩
          rwa [hr] at hns
        simp only [hasSummary] at hos
        simp [hasSummary, summaryOut, hos]
      · exact absurd h (by simp [loopOutcome])

/-- C2, witness: the amended theorem applied to a run whose very first
receive fails fatally. -/
theorem c2_witness :
    hasSummary
      (ping ⟨some 4, 1000, none, 1000, 56, 64, "host"⟩ (.ok "9.9.9.9") (.ok ())
        [⟨false, false, .ok (), .err (.other 7)⟩] 0).outputs = false :=
  c2_no_summary_on_fatal ⟨some 4, 1000, none, 1000, 56, 64, "host"⟩
    (.ok "9.9.9.9") (.ok ())
    [⟨false, false, .ok (), .err (.other 7)⟩] 0 (.other 7) (by decide)

/-- The state carried by a step outcome. -/
def stepSt : StepOut → PingState
  | .fatal st _ _ => st
  | .next st _ _ => st

/-- The state carried by a loop result. -/
def finalSt : LoopRes → PingState
  | .broke st => st
  | .fatal st _ => st
  | .outOfEvents st => st

/-- One loop iteration either leaves `transmit_count` unchanged or bumps it
by one modulo `2 ^ 16`. -/
theorem loopStep_transmit (ctx : PingContext) (st : PingState)
    (ev : IterEvent) :
    (stepSt (loopStep ctx st ev)).transmit_count = st.transmit_count ∨
    (stepSt (loopStep ctx st ev)).transmit_count =
      (st.transmit_count + 1) % 65536 := by
  simp only [loopStep, recvPhase]
  repeat' split
  all_goals simp [stepSt]

/-- Across any run of the loop, the final `transmit_count` is the initial one
advanced, modulo `2 ^ 16`, by at most one probe per consumed event. -/
theorem runLoop_transmit (ctx : PingContext) :
    ∀ (evs : List IterEvent) (st : PingState), st.transmit_count < 65536 →
      ∃ k ≤ evs.length,
        (finalSt (runLoop ctx st evs).1).transmit_count =
          (st.transmit_count + k) % 65536 := by
  intro evs
  induction evs with
  | nil =>
    intro st h
    refine ⟨0, Nat.le_refl 0, ?_⟩
    rw [runLoop]
    split <;> simp [finalSt, Nat.mod_eq_of_lt h]
  | cons ev rest ih =>
    intro st h
    rw [runLoop]
    split
    · exact ⟨0, by simp, by simp [finalSt, Nat.mod_eq_of_lt h]⟩
    · have htx := loopStep_transmit ctx st ev
      rcases hstep : loopStep ctx st ev with ⟨st2, e, sent⟩ | ⟨st2, outs, sent⟩ <;>
        rw [hstep] at htx <;> simp only [stepSt] at htx
      · simp only [hstep]
        rcases htx with h1 | h1
        · exact ⟨0, by simp, by simp [finalSt, h1, Nat.mod_eq_of_lt h]⟩
        · exact ⟨1, by simp, by simp [finalSt, h1]⟩
      · have h2 : st2.transmit_count < 65536 := by
          rcases htx with h1 | h1
          · rw [h1]; exact h
          · rw [h1]; exact Nat.mod_lt _ (by norm_num)
        obtain ⟨k, hk, hfin⟩ := ih st2 h2
        simp only [hstep]
        rcases htx with h1 | h1
        · refine ⟨k, ?_, ?_⟩
          · simp
            omega
          · simpa [h1] using hfin
        · refine ⟨1 + k, ?_, ?_⟩
          · simp
            omega
          · show (finalSt (runLoop ctx st2 rest).1).transmit_count = _
            rw [hfin, h1, Nat.mod_add_mod, Nat.add_assoc]

/-- An event stream entry representing a timer expiry whose subsequent
blocking receive is interrupted by the signal — the stream of a session
that sends probes but receives nothing. -/
def alarmIntrEvent : IterEvent := ⟨false, true, .ok (), .err .interrupted⟩

/-- A timer expiry together with a stop request (`SIGINT`), the receive
again interrupted. -/
def intrStopEvent : IterEvent := ⟨true, true, .ok (), .err .interrupted⟩

/-- Running the loop over `n` probe-sending events advances `transmit_count`
by `n` modulo `2 ^ 16` and leaves the loop result of the remaining events
unchanged otherwise. -/
theorem runLoop_alarm_replicate (n : Nat) :
    ∀ (tail : List IterEvent) (t r mn mx s q : Nat), t < 65536 →
      (runLoop ⟨none, 1000, none, 1000, 56, 64, "host"⟩
          ⟨t, r, mn, mx, s, q, false, false⟩
          (List.replicate n alarmIntrEvent ++ tail)).1 =
      (runLoop ⟨none, 1000, none, 1000, 56, 64, "host"⟩
          ⟨(t + n) % 65536, r, mn, mx, s, q, false, false⟩ tail).1 := by
  induction n with
  | zero =>
    intro tail t r mn mx s q ht
    simp [Nat.mod_eq_of_lt ht]
  | succ n ih =>
    intro tail t r mn mx s q ht
    rw [List.replicate_succ, List.cons_append, runLoop]
    rw [if_neg (by simp [contCond])]
    have hstep : loopStep ⟨none, 1000, none, 1000, 56, 64, "host"⟩
        ⟨t, r, mn, mx, s, q, false, false⟩ alarmIntrEvent =
        .next ⟨(t + 1) % 65536, r, mn, mx, s, q, false, false⟩ [] [t] := rfl
    simp only [hstep]
    have h2 : (t + 1) % 65536 < 65536 := Nat.mod_lt _ (by norm_num)
    have harith : ((t + 1) % 65536 + n) % 65536 = (t + (n + 1)) % 65536 := by
      rw [Nat.mod_add_mod]
      congr 1
      omega
    rw [show ((runLoop ⟨none, 1000, none, 1000, 56, 64, "host"⟩
        ⟨(t + 1) % 65536, r, mn, mx, s, q, false, false⟩
        (List.replicate n alarmIntrEvent ++ tail)).1 =
        (runLoop ⟨none, 1000, none, 1000, 56, 64, "host"⟩
          ⟨((t + 1) % 65536 + n) % 65536, r, mn, mx, s, q, false, false⟩
          tail).1) from ih tail ((t + 1) % 65536) r mn mx s q h2, harith]

/-- On the normal path (resolution and first send both succeed), the session
outcome is determined by the loop result from the post-first-send state. -/
theorem ping_outcome_loop (ctx : PingContext) (addr : String)
    (events : List IterEvent) (endNow : Nat) :
    (ping ctx (.ok addr) (.ok ()) events endNow).outcome =
      loopOutcome (runLoop ctx ⟨1, 0, 2 ^ 128 - 1, 0, 0, 0, false, false⟩
        events).1 := rfl

/-- C9, counterexample: the claim says the division by `transmit_count`
never divides by zero; but `transmit_count` is a wrapping 16-bit counter:
in a session with no count limit that sends 1 + 65535 = 2^16 probes (none
answered) and is then stopped, the counter reads 0 at the summary step and
the loss-percentage division divides by zero. -/
theorem c9_counterexample :
    (ping ⟨none, 1000, none, 1000, 56, 64, "host"⟩ (.ok "9.9.9.9") (.ok ())
      (List.replicate 65534 alarmIntrEvent ++ [intrStopEvent]) 0).outcome =
      .panicked := by
  rw [ping_outcome_loop]
  rw [runLoop_alarm_replicate 65534 [intrStopEvent] 1 0 (2 ^ 128 - 1) 0 0 0
    (by norm_num)]
  decide

/-- C9, amended: provided fewer than `2 ^ 16` probes are sent — in
particular whenever fewer than 65535 events are consumed, since each
iteration sends at most one probe after the one sent before the loop — the
`transmit_count` at the summary step is at least 1, so the loss-percentage
division is never by zero and the run cannot end in the division-by-zero
panic. -/
theorem c9_transmit_positive (ctx : PingContext)
    (resolve : Except ErrKind String) (firstSend : Except ErrKind Unit)
    (events : List IterEvent) (endNow : Nat)
    (h : events.length < 65535) :
    (∀ st, (ping ctx resolve firstSend events endNow).final = some st →
      1 ≤ st.transmit_count) ∧
    (ping ctx resolve firstSend events endNow).outcome ≠ .panicked := by
  unfold ping
  rcases resolve with e2 | addr
  · exact ⟨fun st hst => absurd hst (by simp), by simp⟩
  · rcases hsp : send_packet firstSend with e3 | ⟨⟩
    · simp only [hsp]
      split
      · exact ⟨fun st hst => absurd hst (by simp), by simp⟩
      · exact ⟨fun st hst => absurd hst (by simp), by simp⟩
    · simp only [hsp]
      obtain ⟨k, hk, hfin⟩ := runLoop_transmit ctx events
        ⟨1, 0, 2 ^ 128 - 1, 0, 0, 0, false, false⟩ (by norm_num)
      rcases hr : runLoop ctx ⟨1, 0, 2 ^ 128 - 1, 0, 0, 0, false, false⟩
        events with ⟨r, os, ss⟩
      rw [hr] at hfin
      simp only [hr]
      rcases r with st | ⟨st, e4⟩ | st
      · simp only [finalSt] at hfin
        have hlt : 1 + k < 65536 := by omega
        rw [Nat.mod_eq_of_lt hlt] at hfin
        constructor
        · intro st3 hst
          simp only [loopFinal] at hst
          cases hst
          omega
        · simp only [loopOutcome]
          have hne : st.transmit_count ≠ 0 := by omega
          simp [hne]
      · exact ⟨fun st3 hst => by simp [loopFinal] at hst, by simp [loopOutcome]⟩
      · exact ⟨fun st3 hst => by simp [loopFinal] at hst, by simp [loopOutcome]⟩

/-- C9, witness: the amended theorem applied to a short session stopped by a
stop request after one empty iteration. -/
theorem c9_witness :
    (∀ st, (ping ⟨none, 1000, none, 1000, 56, 64, "host"⟩ (.ok "9.9.9.9")
        (.ok ()) [⟨true, false, .ok (), .err .interrupted⟩] 0).final =
        some st → 1 ≤ st.transmit_count) ∧
    (ping ⟨none, 1000, none, 1000, 56, 64, "host"⟩ (.ok "9.9.9.9") (.ok ())
      [⟨true, false, .ok (), .err .interrupted⟩] 0).outcome ≠ .panicked :=
  c9_transmit_positive ⟨none, 1000, none, 1000, 56, 64, "host"⟩
    (.ok "9.9.9.9") (.ok ()) [⟨true, false, .ok (), .err .interrupted⟩] 0
    (by decide)

end PingSpec
